import Mathlib

/-!
# gRPC query handlers of the IBC connection keeper

A shallow embedding of `x/ibc/03-connection/keeper/grpc_query.go`: the four
handlers `Connection`, `Connections`, `ClientConnections` and
`ClientsConnections`, written as pure functions of the keeper, the call
context and the request.

* A Go call either returns a response, returns an `error`, or panics; the three
  outcomes are the constructors of `Result`.
* Byte strings (`[]byte` keys and values) and Go strings are `String`; the
  byte-lexicographic order of keys is the lexicographic order of their
  character lists.
* The slice a handler's callback appends to is threaded through the scan as
  explicit state.
* Everything the handlers call that lives outside this file (identifier
  validators, keeper accessors, codec, pagination constants) is a field of
  `Keeper`; the paginated scanner and the prefix store follow the written
  specification of the module.
-/

set_option autoImplicit false

/-! ## Errors and outcomes -/

/-- The gRPC status codes the handlers use; `Unknown` is the code of a plain Go `error`. -/
inductive codes where
  | InvalidArgument
  | NotFound
  | Internal
  | Unknown
  deriving DecidableEq, Repr

/-- A Go `error` value: its status code and its message. -/
structure GoError where
  code : codes
  msg : String
  deriving DecidableEq, Repr

/-- The outcome of a Go call: a returned value, a returned `error`, or a run-time panic. -/
inductive Result (α : Type) where
  | ok (val : α)
  | err (e : GoError)
  | panic (msg : String)
  deriving DecidableEq, Repr

namespace status

/-- The call `status.Error(code, msg)`. -/
def Error (c : codes) (msg : String) : GoError := ⟨c, msg⟩

/-- The call `status.Errorf(code, format)` with a format that has no verbs. -/
def Errorf (c : codes) (format : String) : GoError := ⟨c, format⟩

end status

/-! ## Store, context and records -/

/-- Serialized values. -/
abbrev Bytes := String

/-- Byte-lexicographic order on keys. -/
def keyLt (a b : String) : Prop := a.toList < b.toList

instance keyLtDecidable (a b : String) : Decidable (keyLt a b) :=
  inferInstanceAs (Decidable (a.toList < b.toList))

/-- Modelled from the spec: the store package's store view scoped to a key range
(`store/prefix` is not part of this file). Section 4.1: a sorted key-value view,
iterated in ascending byte-lexicographic key order. The keys are the keys as the
view presents them (the spec leaves open whether the range marker is kept). -/
structure PrefixStore where
  entries : List (String × Bytes)
  sorted : entries.Pairwise (fun a b => keyLt a.1 b.1)

/-- Modelled from the spec: the module's key-value store, consumed only through its
scoped views (section 1: "an abstract sorted byte-keyed store scoped to a prefix"). -/
structure KVStore where
  view : String → PrefixStore

/-- The call context: the block height (a Go `int64`) and the store at that height. -/
structure Context where
  BlockHeight : Int
  int64 : -2 ^ 63 ≤ BlockHeight ∧ BlockHeight < 2 ^ 63
  store : KVStore

/-- The Go conversion `uint64(h)` of a signed 64-bit value. -/
def uint64 (h : Int) : Nat := (h % 2 ^ 64).toNat

namespace types

/-- Modelled from the spec: `types.ConnectionEnd`, an opaque connection record
(its declaration is not part of this file); the queries only move it around. -/
structure ConnectionEnd where
  ID : String
  ClientID : String
  deriving DecidableEq, Repr

/-- One entry of `ClientsConnections`: a client id with its connection paths. -/
structure ConnectionPaths where
  ClientID : String
  Paths : List String
  deriving DecidableEq, Repr

/-- The constructor `types.NewConnectionPaths(id, paths)`. -/
def NewConnectionPaths (id : String) (paths : List String) : ConnectionPaths := ⟨id, paths⟩

end types

open types

namespace host

/-- Modelled from the spec: the key range of connection records (section 6). -/
def KeyConnectionPrefix : String := "connections"

/-- Modelled from the spec: the key range of the per-client namespace (section 6). -/
def KeyClientStorePrefix : String := "clients"

end host

/-! ## Pagination -/

namespace query

/-- The page request: resume key (empty when unset), offset, limit, and flags. -/
structure PageRequest where
  Key : String := ""
  Offset : Nat := 0
  Limit : Nat := 0
  CountTotal : Bool := false
  Reverse : Bool := false
  deriving DecidableEq, Repr

/-- The page response: the resume cursor (empty at the end of the scan) and the total. -/
structure PageResponse where
  NextKey : String := ""
  Total : Nat := 0
  deriving DecidableEq, Repr

end query

open query

/-- The collaborators of the handlers that live outside this file. -/
structure Keeper where
  /-- The validator `host.ConnectionIdentifierValidator`: `none` for a valid id, else the error text. -/
  ConnectionIdentifierValidator : String → Option String
  /-- The validator `host.ClientIdentifierValidator`. -/
  ClientIdentifierValidator : String → Option String
  /-- The accessor `Keeper.GetConnection`: the record and the found flag, or the
  message of the panic of a store access that fails. -/
  GetConnection : Context → String → Except String (ConnectionEnd × Bool)
  /-- The accessor `Keeper.GetClientConnectionPaths`: the paths and the found flag, or
  the message of the panic of a store access that fails. -/
  GetClientConnectionPaths : Context → String → Except String (List String × Bool)
  /-- The codec call `cdc.UnmarshalBinaryBare` at `ConnectionEnd`: the record or the error text. -/
  UnmarshalBinaryBare : Bytes → Except String ConnectionEnd
  /-- The text of `sdkerrors.Wrap(types.ErrConnectionNotFound, id).Error()`. -/
  ErrConnectionNotFound : String → String
  /-- The text of `sdkerrors.Wrap(types.ErrClientConnectionPathsNotFound, id).Error()`. -/
  ErrClientConnectionPathsNotFound : String → String
  /-- The page size used when the request gives limit 0. -/
  defaultLimit : Nat
  /-- The largest page size the scanner serves. -/
  maxLimit : Nat

namespace query

/-- Modelled from the spec: the page size of section 4.2, "0 defaults to an
implementation constant ... must be capped at a maximum". -/
def effectiveLimit (q : Keeper) (req : PageRequest) : Nat :=
  min (if req.Limit = 0 then q.defaultLimit else req.Limit) q.maxLimit

/-- Modelled from the spec: the entries a scan iterates, from its resume point on
(sections 4.1 and 4.2). The direction follows `Reverse`; a resume key starts the
scan at that key, inclusive (the cursor is the key of the next entry to visit);
otherwise `Offset` entries are skipped. -/
def scanFrom (store : PrefixStore) (req : PageRequest) : List (String × Bytes) :=
  if req.Reverse then
    if req.Key = "" then store.entries.reverse.drop req.Offset
    else store.entries.reverse.filter (fun e => decide (¬ keyLt req.Key e.1))
  else
    if req.Key = "" then store.entries.drop req.Offset
    else store.entries.filter (fun e => decide (¬ keyLt e.1 req.Key))

/-- Modelled from the spec: the scan loop of section 4.2. Each entry is handed to the
callback; an entry the callback returns from without error is an accepted item and
counts toward the limit; the loop stops once `limit` items are accepted. The cursor
is the key following the last visited entry, empty at the end of the scan. A
callback error aborts the scan with an Internal error and no partial page. -/
def pageLoop {σ : Type} (onResult : String → Bytes → σ → Result σ) :
    Nat → List (String × Bytes) → σ → Result (σ × String)
  | _, [], s => .ok (s, "")
  | 0, (k, _) :: _, s => .ok (s, k)
  | n + 1, (k, v) :: rest, s =>
    match onResult k v s with
    | .ok s' => pageLoop onResult n rest s'
    | .err e => .err (status.Error codes.Internal e.msg)
    | .panic m => .panic m

/-- Modelled from the spec: `query.Paginate` (the `types/query` package is not part of
this file), the PaginatedScanner of section 4.2. The callback has the type the
handlers pass, `func(key, value []byte) error`: its only signal to the scanner is its
error result, and its effect on the slice it appends to is the state `σ`. Skipping an
item without counting it would need a second signal, which a callback of this type
does not have: an item is accepted when the callback returns nil. An absent
page request is the zero request. The resume key and the offset exclude each other.
The total, when requested, counts the entries of the whole view. -/
def Paginate {σ : Type} (q : Keeper) (store : PrefixStore) (req : Option PageRequest)
    (onResult : String → Bytes → σ → Result σ) (init : σ) : Result (σ × PageResponse) :=
  let req := req.getD {}
  if 0 < req.Offset ∧ req.Key ≠ "" then
    .err (status.Error codes.InvalidArgument "invalid request, either offset or key is expected, got both")
  else
    match pageLoop onResult (effectiveLimit q req) (scanFrom store req) init with
    | .ok (s, nextKey) =>
      .ok (s, { NextKey := nextKey, Total := if req.CountTotal then store.entries.length else 0 })
    | .err e => .err e
    | .panic m => .panic m

end query

/-! ## Go library calls used by the handlers -/

namespace strings

/-- Splitting a character list at every occurrence of `sep`. -/
def splitChars (sep : Char) : List Char → List (List Char)
  | [] => [[]]
  | c :: cs =>
    if c = sep then [] :: splitChars sep cs
    else
      match splitChars sep cs with
      | [] => [[c]]
      | seg :: segs => (c :: seg) :: segs

/-- The call `strings.Split(s, sep)` for a one-character separator: the segments of `s`
between the separators, at least one segment (the whole of `s` when it has no separator). -/
def Split (s : String) (sep : Char) : List String :=
  (splitChars sep s.toList).map String.mk

end strings

/-- The Go index expression `xs[i]`: panics when `i` is out of range. -/
def index (xs : List String) (i : Int) : Result String :=
  if i < 0 then .panic "index out of range"
  else
    match xs.get? i.toNat with
    | some x => .ok x
    | none => .panic "index out of range"

/-! ## Requests and responses -/

namespace types

structure QueryConnectionRequest where
  ConnectionID : String
  deriving DecidableEq, Repr

structure QueryConnectionResponse where
  Connection : ConnectionEnd
  ProofHeight : Nat
  deriving DecidableEq, Repr

structure QueryConnectionsRequest where
  Req : Option PageRequest
  deriving DecidableEq, Repr

structure QueryConnectionsResponse where
  Connections : List ConnectionEnd
  Res : PageResponse
  Height : Int
  deriving DecidableEq, Repr

structure QueryClientConnectionsRequest where
  ClientID : String
  deriving DecidableEq, Repr

structure QueryClientConnectionsResponse where
  ConnectionPaths : List String
  ProofHeight : Nat
  deriving DecidableEq, Repr

structure QueryClientsConnectionsRequest where
  Req : Option PageRequest
  deriving DecidableEq, Repr

structure QueryClientsConnectionsResponse where
  ConnectionsPaths : List ConnectionPaths
  Res : PageResponse
  Height : Int
  deriving DecidableEq, Repr

end types

/-! ## The handlers -/

namespace Keeper

/-- Connection implements the Query/Connection gRPC method. -/
def Connection (q : Keeper) (c : Context) (req : Option QueryConnectionRequest) :
    Result QueryConnectionResponse :=
  match req with
  | none => .err (status.Errorf codes.InvalidArgument "empty request")
  | some req =>
    match q.ConnectionIdentifierValidator req.ConnectionID with
    | some err => .err (status.Error codes.InvalidArgument err)
    | none =>
      let ctx := c
      match q.GetConnection ctx req.ConnectionID with
      | .error m => .panic m
      | .ok (connection, found) =>
        if !found then
          .err (status.Error codes.NotFound (q.ErrConnectionNotFound req.ConnectionID))
        else
          .ok { Connection := connection, ProofHeight := uint64 ctx.BlockHeight }

/-- The callback `Connections` hands to the scanner: decode the value and append the record. -/
def connectionsVisitor (q : Keeper) (_key : String) (value : Bytes)
    (connections : List ConnectionEnd) : Result (List ConnectionEnd) :=
  match q.UnmarshalBinaryBare value with
  | .error err => .err ⟨codes.Unknown, err⟩
  | .ok result => .ok (connections ++ [result])

/-- Connections implements the Query/Connections gRPC method. -/
def Connections (q : Keeper) (c : Context) (req : Option QueryConnectionsRequest) :
    Result QueryConnectionsResponse :=
  match req with
  | none => .err (status.Errorf codes.InvalidArgument "empty request")
  | some req =>
    let ctx := c
    let store := ctx.store.view host.KeyConnectionPrefix
    match query.Paginate q store req.Req (connectionsVisitor q) [] with
    | .err err => .err err
    | .panic m => .panic m
    | .ok (connections, res) =>
      .ok { Connections := connections, Res := res, Height := ctx.BlockHeight }

/-- ClientConnections implements the Query/ClientConnections gRPC method. -/
def ClientConnections (q : Keeper) (c : Context) (req : Option QueryClientConnectionsRequest) :
    Result QueryClientConnectionsResponse :=
  match req with
  | none => .err (status.Errorf codes.InvalidArgument "empty request")
  | some req =>
    match q.ClientIdentifierValidator req.ClientID with
    | some err => .err (status.Error codes.InvalidArgument err)
    | none =>
      let ctx := c
      match q.GetClientConnectionPaths ctx req.ClientID with
      | .error m => .panic m
      | .ok (clientConnectionPaths, found) =>
        if !found then
          .err (status.Error codes.NotFound (q.ErrClientConnectionPathsNotFound req.ClientID))
        else
          .ok { ConnectionPaths := clientConnectionPaths, ProofHeight := uint64 ctx.BlockHeight }

/-- The callback `ClientsConnections` hands to the scanner: split the key at "/",
return early unless the last segment is "clientState", take the second segment as the
client id, look its paths up, and append an entry when they are found. -/
def clientsConnectionsVisitor (q : Keeper) (ctx : Context) (key : String) (_value : Bytes)
    (connectionsPaths : List ConnectionPaths) : Result (List ConnectionPaths) :=
  let keySplit := strings.Split key '/'
  match index keySplit ((keySplit.length : Int) - 1) with
  | .panic m => .panic m
  | .err e => .err e
  | .ok last =>
    if last ≠ "clientState" then
      .ok connectionsPaths
    else
      match index keySplit 1 with
      | .panic m => .panic m
      | .err e => .err e
      | .ok clientStateID =>
        match q.GetClientConnectionPaths ctx clientStateID with
        | .error m => .panic m
        | .ok (paths, found) =>
          if !found then
            .ok connectionsPaths
          else
            let connPaths := NewConnectionPaths clientStateID paths
            .ok (connectionsPaths ++ [connPaths])

/-- ClientsConnections implements the Query/ClientsConnections gRPC method. -/
def ClientsConnections (q : Keeper) (c : Context) (req : Option QueryClientsConnectionsRequest) :
    Result QueryClientsConnectionsResponse :=
  match req with
  | none => .err (status.Errorf codes.InvalidArgument "empty request")
  | some req =>
    let ctx := c
    let store := ctx.store.view host.KeyClientStorePrefix
    match query.Paginate q store req.Req (clientsConnectionsVisitor q ctx) [] with
    | .err err => .err err
    | .panic m => .panic m
    | .ok (connectionsPaths, res) =>
      .ok { ConnectionsPaths := connectionsPaths, Res := res, Height := ctx.BlockHeight }

end Keeper

/-! ## Notions used to state the properties -/

/-- The entries `Connections` scans: the view of the connection records. -/
def connectionEntries (ctx : Context) : List (String × Bytes) :=
  (ctx.store.view host.KeyConnectionPrefix).entries

/-- The entries `ClientsConnections` scans: the view of the per-client namespace. -/
def clientEntries (ctx : Context) : List (String × Bytes) :=
  (ctx.store.view host.KeyClientStorePrefix).entries

/-- The cursor a scan leaves when `rest` is what remains to visit: the key of the
next entry, empty when nothing remains. -/
def cursor (rest : List (String × Bytes)) : String :=
  match rest with
  | [] => ""
  | (k, _) :: _ => k

/-- The entries one page covers: the first `effectiveLimit` entries from the resume
point, none when the page request is rejected. -/
def scannedRange (q : Keeper) (store : PrefixStore) (req : Option PageRequest) :
    List (String × Bytes) :=
  let r := req.getD {}
  if 0 < r.Offset ∧ r.Key ≠ "" then [] else (scanFrom store r).take (effectiveLimit q r)

/-- The last "/"-separated segment of a key. -/
def lastSegment (key : String) : Option String := (strings.Split key '/').getLast?

/-- The second "/"-separated segment of a key, when it has one. -/
def secondSegment (key : String) : Option String := (strings.Split key '/').get? 1

/-- The entry a key of the client namespace contributes to `ClientsConnections`: the
key's last segment is "clientState" and the client named by its second segment has
stored paths. -/
def entryOf (q : Keeper) (ctx : Context) (key : String) : Option ConnectionPaths :=
  if lastSegment key = some "clientState" then
    match secondSegment key with
    | none => none
    | some id =>
      match q.GetClientConnectionPaths ctx id with
      | .ok (paths, true) => some ⟨id, paths⟩
      | _ => none
  else none

/-- Walking the pages of `Connections` with page size `L`: start at `key`, resume with
each returned cursor until it is empty, and collect the records of every page in
order. `none` when the fuel runs out or a call fails. -/
def collectPages (q : Keeper) (ctx : Context) (L : Nat) : Nat → String → Option (List ConnectionEnd)
  | 0, _ => none
  | fuel + 1, key =>
    match q.Connections ctx (some ⟨some { Key := key, Limit := L }⟩) with
    | .ok resp =>
      if resp.Res.NextKey = "" then some resp.Connections
      else (collectPages q ctx L fuel resp.Res.NextKey).map (fun more => resp.Connections ++ more)
    | _ => none

/-! ## Sample stores -/

namespace Sample

/-- A toy record encoding: `<ID>@<ClientID>`. -/
def decodeConnection (bz : Bytes) : Except String ConnectionEnd :=
  match strings.Split bz '@' with
  | [id, client] => .ok ⟨id, client⟩
  | _ => .error "unexpected EOF"

/-- The value stored under `key`, if any. -/
def get (store : PrefixStore) (key : String) : Option Bytes :=
  (store.entries.find? (fun e => e.1 = key)).map Prod.snd

/-- An identifier check in the manner of ICS-24: 9 to 20 characters, no "/". -/
def validate (id : String) : Option String :=
  if id.length < 9 ∨ 20 < id.length ∨ '/' ∈ id.toList then some "invalid identifier" else none

/-- A keeper over the key layout of section 6: records under `connections/<id>`,
path lists (comma separated) under `clients/<id>/connections`. -/
def keeper : Keeper where
  ConnectionIdentifierValidator := validate
  ClientIdentifierValidator := validate
  GetConnection := fun ctx id =>
    match get (ctx.store.view host.KeyConnectionPrefix) ("connections/" ++ id) with
    | none => .ok (⟨"", ""⟩, false)
    | some bz =>
      match decodeConnection bz with
      | .ok conn => .ok (conn, true)
      | .error e => .error e
  GetClientConnectionPaths := fun ctx id =>
    match get (ctx.store.view host.KeyClientStorePrefix) ("clients/" ++ id ++ "/connections") with
    | none => .ok ([], false)
    | some bz => .ok (strings.Split bz ',', true)
  UnmarshalBinaryBare := decodeConnection
  ErrConnectionNotFound := fun id => id ++ ": connection not found"
  ErrClientConnectionPathsNotFound := fun id => id ++ ": client connection paths not found"
  defaultLimit := 100
  maxLimit := 1000

/-- A keeper whose every store access fails. -/
def brokenKeeper : Keeper :=
  { keeper with
    GetConnection := fun _ _ => .error "store access failed"
    GetClientConnectionPaths := fun _ _ => .error "store access failed" }

/-- Three connection records. -/
def connectionView : PrefixStore where
  entries :=
    [("connections/connection-0", "connection-0@07-tendermint-0"),
     ("connections/connection-1", "connection-1@07-tendermint-0"),
     ("connections/connection-2", "connection-2@07-tendermint-1")]
  sorted := by decide

/-- Three connection records, the second one corrupted. -/
def corruptView : PrefixStore where
  entries :=
    [("connections/connection-0", "connection-0@07-tendermint-0"),
     ("connections/connection-1", "garbage"),
     ("connections/connection-2", "connection-2@07-tendermint-1")]
  sorted := by decide

/-- Client "07-tendermint-0" with marker and paths, client "07-tendermint-1" with marker only. -/
def clientView : PrefixStore where
  entries :=
    [("clients/07-tendermint-0/clientState", "state"),
     ("clients/07-tendermint-0/connections", "connection-0"),
     ("clients/07-tendermint-1/clientState", "state")]
  sorted := by decide

/-- Two clients, each with marker and paths. -/
def twoClientsView : PrefixStore where
  entries :=
    [("clients/07-tendermint-0/clientState", "state"),
     ("clients/07-tendermint-0/connections", "connection-0"),
     ("clients/07-tendermint-1/clientState", "state"),
     ("clients/07-tendermint-1/connections", "connection-1")]
  sorted := by decide

/-- A client view that presents the one-segment key "clientState". -/
def bareKeyView : PrefixStore where
  entries := [("clientState", "state")]
  sorted := by decide

/-- A client view with the two-segment key "clients/clientState" next to the paths of
a client that is itself named "clientState". -/
def shortKeyView : PrefixStore where
  entries :=
    [("clients/clientState", "state"),
     ("clients/clientState/connections", "connection-0")]
  sorted := by decide

/-- The keeper `keeper` with the largest page size set to 1. -/
def cappedKeeper : Keeper :=
  { keeper with maxLimit := 1 }

/-- A keeper over views that present their keys without the range marker: records
under `/<id>`, path lists under `/<id>/connections`. -/
def strippedKeeper : Keeper :=
  { keeper with
    GetConnection := fun ctx id =>
      match get (ctx.store.view host.KeyConnectionPrefix) ("/" ++ id) with
      | none => .ok (⟨"", ""⟩, false)
      | some bz =>
        match decodeConnection bz with
        | .ok conn => .ok (conn, true)
        | .error e => .error e
    GetClientConnectionPaths := fun ctx id =>
      match get (ctx.store.view host.KeyClientStorePrefix) ("/" ++ id ++ "/connections") with
      | none => .ok ([], false)
      | some bz => .ok (strings.Split bz ',', true) }

/-- The client view of the store keys "clients/07-tendermint-0/clientState" and
"clients/07-tendermint-0/connections", presented without the range marker "clients". -/
def strippedView : PrefixStore where
  entries :=
    [("/07-tendermint-0/clientState", "state"),
     ("/07-tendermint-0/connections", "connection-0")]
  sorted := by decide

/-- The view `strippedView` of a store that also holds the key "clientsclientState",
which lies in the range "clients" and is presented as "clientState". -/
def strippedBareView : PrefixStore where
  entries :=
    [("/07-tendermint-0/clientState", "state"),
     ("/07-tendermint-0/connections", "connection-0"),
     ("clientState", "state")]
  sorted := by decide

/-- The store with the given connection and client views. -/
def storeOf (conns clients : PrefixStore) : KVStore where
  view := fun p =>
    if p = host.KeyConnectionPrefix then conns
    else if p = host.KeyClientStorePrefix then clients
    else ⟨[], List.Pairwise.nil⟩

/-- The context at height `h` over the given views. -/
def ctxAt (h : Int) (hr : -2 ^ 63 ≤ h ∧ h < 2 ^ 63) (conns clients : PrefixStore) : Context where
  BlockHeight := h
  int64 := hr
  store := storeOf conns clients

/-- Height 7, three connections, the clients of `clientView`. -/
def ctx : Context := ctxAt 7 (by decide) connectionView clientView

/-- Height 7, the corrupted connection view. -/
def corruptCtx : Context := ctxAt 7 (by decide) corruptView clientView

/-- Height 7, two clients with marker and paths. -/
def twoClientsCtx : Context := ctxAt 7 (by decide) connectionView twoClientsView

/-- Height 7, the client view with the bare key. -/
def bareKeyCtx : Context := ctxAt 7 (by decide) connectionView bareKeyView

/-- Height 7, the client view with the two-segment key. -/
def shortKeyCtx : Context := ctxAt 7 (by decide) connectionView shortKeyView

/-- Height 7, the client view `strippedView`. -/
def strippedCtx : Context := ctxAt 7 (by decide) connectionView strippedView

/-- Height 7, the client view `strippedBareView`. -/
def strippedBareCtx : Context := ctxAt 7 (by decide) connectionView strippedBareView

/-- The same store as `ctx` at the negative height -1. -/
def negativeCtx : Context := ctxAt (-1) (by decide) connectionView clientView

end Sample

/-! ## Point lookups -/

open Keeper

/-- C9: a nil request is rejected by each of the four handlers with the InvalidArgument
error "empty request", whatever the keeper (validators, accessors) and the context
(height, store) are. -/
theorem nil_request_rejected (q : Keeper) (ctx : Context) :
    q.Connection ctx none = .err ⟨codes.InvalidArgument, "empty request"⟩ ∧
    q.Connections ctx none = .err ⟨codes.InvalidArgument, "empty request"⟩ ∧
    q.ClientConnections ctx none = .err ⟨codes.InvalidArgument, "empty request"⟩ ∧
    q.ClientsConnections ctx none = .err ⟨codes.InvalidArgument, "empty request"⟩ :=
  ⟨rfl, rfl, rfl, rfl⟩

/-- C1: for an identifier the validator accepts and for which the accessor reports
"not found" (whatever value it returns next to the flag), `Connection` and
`ClientConnections` return the NotFound error and hence no response. -/
theorem absent_lookup_not_found (q : Keeper) (ctx : Context) (id : String) :
    (∀ zero, q.ConnectionIdentifierValidator id = none →
        q.GetConnection ctx id = .ok (zero, false) →
        q.Connection ctx (some ⟨id⟩) = .err ⟨codes.NotFound, q.ErrConnectionNotFound id⟩ ∧
        ∀ resp, q.Connection ctx (some ⟨id⟩) ≠ .ok resp) ∧
    (∀ zero, q.ClientIdentifierValidator id = none →
        q.GetClientConnectionPaths ctx id = .ok (zero, false) →
        q.ClientConnections ctx (some ⟨id⟩) =
          .err ⟨codes.NotFound, q.ErrClientConnectionPathsNotFound id⟩ ∧
        ∀ resp, q.ClientConnections ctx (some ⟨id⟩) ≠ .ok resp) := by
  constructor
  · intro zero hv hg
    have h : q.Connection ctx (some ⟨id⟩) = .err ⟨codes.NotFound, q.ErrConnectionNotFound id⟩ := by
      simp [Connection, hv, hg, status.Error]
    exact ⟨h, fun resp hr => by rw [h] at hr; cases hr⟩
  · intro zero hv hg
    have h : q.ClientConnections ctx (some ⟨id⟩) =
        .err ⟨codes.NotFound, q.ErrClientConnectionPathsNotFound id⟩ := by
      simp [ClientConnections, hv, hg, status.Error]
    exact ⟨h, fun resp hr => by rw [h] at hr; cases hr⟩

/-- Witness for C1: "connection-9" and "07-tendermint-1" are valid and have nothing stored. -/
theorem absent_lookup_not_found_witness :
    (Sample.keeper.Connection Sample.ctx (some ⟨"connection-9"⟩) =
        .err ⟨codes.NotFound, "connection-9: connection not found"⟩ ∧
      ∀ resp, Sample.keeper.Connection Sample.ctx (some ⟨"connection-9"⟩) ≠ .ok resp) ∧
    (Sample.keeper.ClientConnections Sample.ctx (some ⟨"07-tendermint-1"⟩) =
        .err ⟨codes.NotFound, "07-tendermint-1: client connection paths not found"⟩ ∧
      ∀ resp, Sample.keeper.ClientConnections Sample.ctx (some ⟨"07-tendermint-1"⟩) ≠ .ok resp) :=
  ⟨(absent_lookup_not_found Sample.keeper Sample.ctx "connection-9").1 ⟨"", ""⟩
      (by decide) rfl,
   (absent_lookup_not_found Sample.keeper Sample.ctx "07-tendermint-1").2 []
      (by decide) rfl⟩

/-- C2: when the validator rejects the identifier of a non-nil request, `Connection`
and `ClientConnections` return the InvalidArgument error carrying the validator's
text, for every context and whatever the store accessor would do (find the entry,
report it missing, or fail): the accessor is replaced by an arbitrary one and the
result does not change. -/
theorem malformed_identifier_rejected (q : Keeper) (ctx : Context) (id msg : String) :
    (q.ConnectionIdentifierValidator id = some msg →
        ∀ get, Keeper.Connection { q with GetConnection := get } ctx (some ⟨id⟩) =
          .err ⟨codes.InvalidArgument, msg⟩) ∧
    (q.ClientIdentifierValidator id = some msg →
        ∀ get, Keeper.ClientConnections { q with GetClientConnectionPaths := get } ctx (some ⟨id⟩) =
          .err ⟨codes.InvalidArgument, msg⟩) := by
  constructor
  · intro hv get
    simp [Connection, hv, status.Error]
  · intro hv get
    simp [ClientConnections, hv, status.Error]

/-- Witness for C2: the identifier "conn" is too short; the result is the same over a
store whose every access fails and over one that reports every entry missing. -/
theorem malformed_identifier_rejected_witness :
    (Sample.brokenKeeper.Connection Sample.ctx (some ⟨"conn"⟩) =
        .err ⟨codes.InvalidArgument, "invalid identifier"⟩ ∧
      Keeper.Connection { Sample.keeper with GetConnection := fun _ _ => .ok (⟨"", ""⟩, false) }
        Sample.ctx (some ⟨"conn"⟩) = .err ⟨codes.InvalidArgument, "invalid identifier"⟩) ∧
    Sample.brokenKeeper.ClientConnections Sample.ctx (some ⟨"a/b"⟩) =
      .err ⟨codes.InvalidArgument, "invalid identifier"⟩ :=
  ⟨⟨(malformed_identifier_rejected Sample.brokenKeeper Sample.ctx "conn" "invalid identifier").1
        (by decide) (fun _ _ => .error "store access failed"),
    (malformed_identifier_rejected Sample.keeper Sample.ctx "conn" "invalid identifier").1
        (by decide) _⟩,
   (malformed_identifier_rejected Sample.brokenKeeper Sample.ctx "a/b" "invalid identifier").2
        (by decide) (fun _ _ => .error "store access failed")⟩

/-- C3: for an identifier the validator accepts and for which the accessor finds a
value, `Connection` succeeds with exactly that record and `ClientConnections` succeeds
with exactly that list of paths (same elements, same order). -/
theorem present_lookup_returns_stored (q : Keeper) (ctx : Context) (id : String) :
    (∀ conn, q.ConnectionIdentifierValidator id = none →
        q.GetConnection ctx id = .ok (conn, true) →
        q.Connection ctx (some ⟨id⟩) =
          .ok { Connection := conn, ProofHeight := uint64 ctx.BlockHeight }) ∧
    (∀ paths, q.ClientIdentifierValidator id = none →
        q.GetClientConnectionPaths ctx id = .ok (paths, true) →
        q.ClientConnections ctx (some ⟨id⟩) =
          .ok { ConnectionPaths := paths, ProofHeight := uint64 ctx.BlockHeight }) := by
  constructor
  · intro conn hv hg
    simp [Connection, hv, hg]
  · intro paths hv hg
    simp [ClientConnections, hv, hg]

/-- Witness for C3: the stored record of "connection-1" and the stored paths of "07-tendermint-0". -/
theorem present_lookup_returns_stored_witness :
    Sample.keeper.Connection Sample.ctx (some ⟨"connection-1"⟩) =
      .ok { Connection := ⟨"connection-1", "07-tendermint-0"⟩, ProofHeight := uint64 7 } ∧
    Sample.keeper.ClientConnections Sample.ctx (some ⟨"07-tendermint-0"⟩) =
      .ok { ConnectionPaths := ["connection-0"], ProofHeight := uint64 7 } :=
  ⟨(present_lookup_returns_stored Sample.keeper Sample.ctx "connection-1").1 _
      (by decide) rfl,
   (present_lookup_returns_stored Sample.keeper Sample.ctx "07-tendermint-0").2 _
      (by decide) rfl⟩

/-! ## The scan loop -/

/-- A callback that appends at most one item per entry and never fails on the page
makes the loop collect those items over the first `n` entries and leave the cursor on
the entry after them. -/
theorem pageLoop_collect {α : Type} (onResult : String → Bytes → List α → Result (List α))
    (g : String × Bytes → Option α) :
    ∀ (l : List (String × Bytes)) (n : Nat) (acc : List α),
      (∀ e ∈ l.take n, ∀ acc, onResult e.1 e.2 acc = .ok (acc ++ (g e).toList)) →
      query.pageLoop onResult n l acc = .ok (acc ++ (l.take n).filterMap g, cursor (l.drop n)) := by
  intro l
  induction l with
  | nil => intro n acc _; cases n <;> simp [query.pageLoop, cursor]
  | cons e rest ih =>
    intro n acc h
    obtain ⟨k, v⟩ := e
    cases n with
    | zero => simp [query.pageLoop, cursor]
    | succ n =>
      have h0 := h (k, v) (by simp) acc
      simp only at h0
      simp only [query.pageLoop, h0]
      rw [ih n _ (fun e he acc => h e (by simp [he]) acc)]
      cases hg : g (k, v) <;> simp [List.filterMap_cons, hg]

/-- A value on the page that does not decode makes the loop of `Connections` stop with an
Internal error. -/
theorem pageLoop_corrupt (q : Keeper) :
    ∀ (l : List (String × Bytes)) (n : Nat) (acc : List ConnectionEnd),
      (∃ e ∈ l.take n, ∃ m, q.UnmarshalBinaryBare e.2 = .error m) →
      ∃ msg, query.pageLoop (connectionsVisitor q) n l acc = .err ⟨codes.Internal, msg⟩ := by
  intro l
  induction l with
  | nil => intro n acc h; simp at h
  | cons e rest ih =>
    intro n acc h
    obtain ⟨k, v⟩ := e
    cases n with
    | zero => simp at h
    | succ n =>
      obtain ⟨e, he, m, hm⟩ := h
      cases hv : q.UnmarshalBinaryBare v with
      | error m' => exact ⟨m', by simp [query.pageLoop, connectionsVisitor, hv, status.Error]⟩
      | ok c =>
        simp only [List.take_succ_cons, List.mem_cons] at he
        rcases he with rfl | he
        · simp [hv] at hm
        · obtain ⟨msg, hmsg⟩ := ih n (acc ++ [c]) ⟨e, he, m, hm⟩
          exact ⟨msg, by simp [query.pageLoop, connectionsVisitor, hv, hmsg]⟩

/-- In a sorted view, the entries at or after the key of an entry are that entry and
the ones behind it. -/
theorem filter_resume (pre suf : List (String × Bytes)) (e : String × Bytes)
    (h : (pre ++ e :: suf).Pairwise (fun a b => keyLt a.1 b.1)) :
    (pre ++ e :: suf).filter (fun x => decide (¬ keyLt x.1 e.1)) = e :: suf := by
  rw [List.pairwise_append] at h
  obtain ⟨_, hs, hps⟩ := h
  rw [List.pairwise_cons] at hs
  have h1 : pre.filter (fun x => decide (¬ keyLt x.1 e.1)) = [] := by
    rw [List.filter_eq_nil_iff]
    intro a ha
    simpa using hps a ha e (by simp)
  have h2 : (e :: suf).filter (fun x => decide (¬ keyLt x.1 e.1)) = e :: suf := by
    rw [List.filter_eq_self]
    intro a ha
    rcases List.mem_cons.1 ha with rfl | ha
    · simp [keyLt]
    · have := hs.1 a ha
      simpa [keyLt] using lt_asymm this
  rw [List.filter_append, h1, h2, List.nil_append]

/-- In a sorted view only the first key can be empty. -/
theorem key_ne_empty (pre suf : List (String × Bytes)) (e : String × Bytes) (hpre : pre ≠ [])
    (h : (pre ++ e :: suf).Pairwise (fun a b => keyLt a.1 b.1)) : e.1 ≠ "" := by
  rw [List.pairwise_append] at h
  obtain ⟨a, t, rfl⟩ := List.exists_cons_of_ne_nil hpre
  have hlt : keyLt a.1 e.1 := h.2.2 a (by simp) e (by simp)
  intro he
  rw [he] at hlt
  have hnil : a.1.toList < ([] : List Char) := hlt
  generalize a.1.toList = s at hnil
  cases hnil

/-! ## Connections -/

/-- The page size of a request with a positive limit within the cap is that limit. -/
theorem effectiveLimit_eq (q : Keeper) (req : PageRequest) (hpos : 0 < req.Limit)
    (hmax : req.Limit ≤ q.maxLimit) : query.effectiveLimit q req = req.Limit := by
  unfold query.effectiveLimit
  rw [if_neg (by omega)]
  exact Nat.min_eq_left hmax

/-- One page of `Connections` over well-formed records: the records of the first `L`
entries from the resume point, and the cursor on the entry after them. -/
theorem connections_page (q : Keeper) (ctx : Context) (f : String × Bytes → ConnectionEnd)
    (key : String) (L : Nat) (hpos : 0 < L) (hmax : L ≤ q.maxLimit)
    (hdec : ∀ e ∈ query.scanFrom (ctx.store.view host.KeyConnectionPrefix) { Key := key, Limit := L },
      q.UnmarshalBinaryBare e.2 = .ok (f e)) :
    q.Connections ctx (some ⟨some { Key := key, Limit := L }⟩) =
      .ok { Connections :=
              ((query.scanFrom (ctx.store.view host.KeyConnectionPrefix)
                { Key := key, Limit := L }).take L).map f
            Res := { NextKey := cursor ((query.scanFrom (ctx.store.view host.KeyConnectionPrefix)
                { Key := key, Limit := L }).drop L) }
            Height := ctx.BlockHeight } := by
  have hl : query.effectiveLimit q { Key := key, Limit := L } = L :=
    effectiveLimit_eq q _ hpos hmax
  have hloop := pageLoop_collect (connectionsVisitor q) (fun e => some (f e))
    (query.scanFrom (ctx.store.view host.KeyConnectionPrefix) { Key := key, Limit := L }) L []
    (fun e he acc => by
      simp [connectionsVisitor, hdec e (List.mem_of_mem_take he)])
  have hmap : ∀ l : List (String × Bytes), l.filterMap (fun e => some (f e)) = l.map f := by
    intro l; induction l <;> simp_all
  simp only [Connections, query.Paginate, Option.getD_some, hl, hloop]
  simp [hmap]

/-- C6: when a value among the entries the page of `Connections` covers does not decode
into a connection record, the call returns an error of kind Internal, so no response
(no records, no cursor) is returned. -/
theorem connections_corrupt_value_internal (q : Keeper) (ctx : Context)
    (req : Option PageRequest) (e : String × Bytes) (m : String)
    (he : e ∈ scannedRange q (ctx.store.view host.KeyConnectionPrefix) req)
    (hbad : q.UnmarshalBinaryBare e.2 = .error m) :
    (∃ msg, q.Connections ctx (some ⟨req⟩) = .err ⟨codes.Internal, msg⟩) ∧
    ∀ resp, q.Connections ctx (some ⟨req⟩) ≠ .ok resp := by
  have hex : ∃ msg, q.Connections ctx (some ⟨req⟩) = .err ⟨codes.Internal, msg⟩ := by
    unfold scannedRange at he
    by_cases hrej : 0 < (req.getD {}).Offset ∧ (req.getD {}).Key ≠ ""
    · simp [hrej] at he
    · simp only [hrej, if_false] at he
      obtain ⟨msg, hmsg⟩ := pageLoop_corrupt q _ _ [] ⟨e, he, m, hbad⟩
      exact ⟨msg, by simp only [Connections, query.Paginate, hrej, if_false, hmsg]⟩
  obtain ⟨msg, hmsg⟩ := hex
  exact ⟨⟨msg, hmsg⟩, fun resp hr => by rw [hmsg] at hr; cases hr⟩

/-- Witness for C6: the second of three records is corrupted and a page of two covers it. -/
theorem connections_corrupt_value_internal_witness :
    (∃ msg, Sample.keeper.Connections Sample.corruptCtx (some ⟨some { Limit := 2 }⟩) =
      .err ⟨codes.Internal, msg⟩) ∧
    ∀ resp, Sample.keeper.Connections Sample.corruptCtx (some ⟨some { Limit := 2 }⟩) ≠ .ok resp :=
  connections_corrupt_value_internal Sample.keeper Sample.corruptCtx (some { Limit := 2 })
    ("connections/connection-1", "garbage") "unexpected EOF" (by decide) rfl

/-- Walking the pages from a resume point reaches every remaining record once, in order. -/
theorem collectPages_suffix (q : Keeper) (ctx : Context) (f : String × Bytes → ConnectionEnd)
    (L : Nat) (hpos : 0 < L) (hmax : L ≤ q.maxLimit)
    (hdec : ∀ e ∈ connectionEntries ctx, q.UnmarshalBinaryBare e.2 = .ok (f e)) :
    ∀ (fuel : Nat) (pre suf : List (String × Bytes)) (key : String),
      connectionEntries ctx = pre ++ suf → suf ≠ [] →
      (pre = [] ∧ key = "") ∨ (pre ≠ [] ∧ key = cursor suf) →
      suf.length ≤ fuel →
      collectPages q ctx L fuel key = some (suf.map f) := by
  intro fuel
  induction fuel with
  | zero =>
    intro pre suf key _ hne _ hlen
    exact absurd (List.length_eq_zero.1 (Nat.le_zero.1 hlen)) hne
  | succ fuel ih =>
    intro pre suf key hsplit hne hkey hlen
    have hsorted := (ctx.store.view host.KeyConnectionPrefix).sorted
    have hentries : (ctx.store.view host.KeyConnectionPrefix).entries = pre ++ suf := hsplit
    have hscan : query.scanFrom (ctx.store.view host.KeyConnectionPrefix)
        { Key := key, Limit := L } = suf := by
      rcases hkey with ⟨hp, hk⟩ | ⟨hp, hk⟩
      · subst hp; subst hk
        simp [query.scanFrom, hentries]
      · obtain ⟨e, t, rfl⟩ := List.exists_cons_of_ne_nil hne
        rw [hentries] at hsorted
        have hke : key = e.1 := by rw [hk]; rfl
        have hk0 : key ≠ "" := hke ▸ key_ne_empty pre t e hp hsorted
        simp only [query.scanFrom, hk0, if_false, Bool.false_eq_true, hentries]
        rw [hke]
        exact filter_resume pre t e hsorted
    have hpage := connections_page q ctx f key L hpos hmax (by
      rw [hscan]
      intro e he
      exact hdec e (by rw [hsplit]; exact List.mem_append_right _ he))
    rw [hscan] at hpage
    unfold collectPages
    rw [hpage]
    by_cases hend : suf.drop L = []
    · have htake : suf.take L = suf := by
        rw [List.drop_eq_nil_iff] at hend
        exact List.take_of_length_le hend
      simp [hend, cursor, htake]
    · obtain ⟨e, t, het⟩ := List.exists_cons_of_ne_nil hend
      have hsplit2 : connectionEntries ctx = (pre ++ suf.take L) ++ suf.drop L := by
        rw [List.append_assoc, List.take_append_drop]; exact hsplit
      have hpre2 : pre ++ suf.take L ≠ [] := by
        intro h0
        have h1 : suf.take L = [] := (List.append_eq_nil.1 h0).2
        rcases List.take_eq_nil_iff.1 h1 with h2 | h2
        · omega
        · exact hne h2
      have hk2 : cursor (suf.drop L) ≠ "" := by
        rw [het]
        have hs2 := hsorted
        rw [hentries, ← List.take_append_drop L suf, het, ← List.append_assoc] at hs2
        exact key_ne_empty _ t e hpre2 hs2
      have hlen2 : (suf.drop L).length ≤ fuel := by
        rw [List.length_drop]; omega
      have hrec := ih (pre ++ suf.take L) (suf.drop L) (cursor (suf.drop L)) hsplit2 hend
        (Or.inr ⟨hpre2, rfl⟩) hlen2
      simp only [hk2, if_false, hrec, Option.map_some']
      rw [← List.map_append, List.take_append_drop]

/-- C8, counterexample: three connection records that all decode, limit 2, and a
scanner whose largest page size is 1: `Connections` returns one record and the cursor
"connections/connection-1", not the first two records and "connections/connection-2". -/
theorem connections_limit_above_cap :
    0 < 2 ∧ 2 < (connectionEntries Sample.ctx).length ∧
    (connectionEntries Sample.ctx).map (fun e => Sample.cappedKeeper.UnmarshalBinaryBare e.2) =
      [.ok ⟨"connection-0", "07-tendermint-0"⟩, .ok ⟨"connection-1", "07-tendermint-0"⟩,
        .ok ⟨"connection-2", "07-tendermint-1"⟩] ∧
    Sample.cappedKeeper.Connections Sample.ctx (some ⟨some { Limit := 2 }⟩) =
      .ok { Connections := [⟨"connection-0", "07-tendermint-0"⟩]
            Res := { NextKey := "connections/connection-1" }
            Height := 7 } ∧
    ([⟨"connection-0", "07-tendermint-0"⟩] : List ConnectionEnd) ≠
      [⟨"connection-0", "07-tendermint-0"⟩, ⟨"connection-1", "07-tendermint-0"⟩] := by
  refine ⟨by decide, by decide, rfl, by decide, by decide⟩

/-- C8, as amended: over a view of N connection records that all decode, a limit L with
0 < L < N that is no larger than the largest page size the scanner serves makes `Connections` return the
records of the first L entries in ascending key order and a non-empty cursor, the key
of entry L; and walking the pages from the start, resuming with each returned cursor
until it is empty, yields every one of the N records exactly once, in key order, for
any fuel of at least N calls. -/
theorem connections_pagination (q : Keeper) (ctx : Context) (f : String × Bytes → ConnectionEnd)
    (L : Nat) (hdec : ∀ e ∈ connectionEntries ctx, q.UnmarshalBinaryBare e.2 = .ok (f e))
    (hpos : 0 < L) (hlt : L < (connectionEntries ctx).length) (hmax : L ≤ q.maxLimit) :
    (q.Connections ctx (some ⟨some { Limit := L }⟩) =
        .ok { Connections := ((connectionEntries ctx).take L).map f
              Res := { NextKey := cursor ((connectionEntries ctx).drop L) }
              Height := ctx.BlockHeight } ∧
      cursor ((connectionEntries ctx).drop L) ≠ "") ∧
    ∀ fuel, (connectionEntries ctx).length ≤ fuel →
      collectPages q ctx L fuel "" = some ((connectionEntries ctx).map f) := by
  have hne : connectionEntries ctx ≠ [] := by
    intro h; rw [h] at hlt; simp at hlt
  have hscan : query.scanFrom (ctx.store.view host.KeyConnectionPrefix) { Key := "", Limit := L } =
      connectionEntries ctx := by
    simp [query.scanFrom, connectionEntries]
  refine ⟨⟨?_, ?_⟩, ?_⟩
  · have hpage := connections_page q ctx f "" L hpos hmax (by rw [hscan]; exact hdec)
    rw [hscan] at hpage
    exact hpage
  · have hdrop : (connectionEntries ctx).drop L ≠ [] := by
      rw [Ne, List.drop_eq_nil_iff]; omega
    obtain ⟨e, t, het⟩ := List.exists_cons_of_ne_nil hdrop
    have hs := (ctx.store.view host.KeyConnectionPrefix).sorted
    have htake : (connectionEntries ctx).take L ≠ [] := by
      intro h0
      rcases List.take_eq_nil_iff.1 h0 with h1 | h1
      · omega
      · exact hne h1
    have hs2 : ((connectionEntries ctx).take L ++ e :: t).Pairwise (fun a b => keyLt a.1 b.1) := by
      rw [← het, List.take_append_drop]; exact hs
    rw [het]
    exact key_ne_empty _ t e htake hs2
  · intro fuel hfuel
    exact collectPages_suffix q ctx f L hpos hmax hdec fuel [] (connectionEntries ctx) ""
      (by simp) hne (Or.inl ⟨rfl, rfl⟩) hfuel

/-- Witness for C8: with largest page size 1000, connections 0, 1 and 2 with limit 2 give the first two records and
the cursor "connections/connection-2"; resuming there gives the third record and an
empty cursor; the walk collects the three records in order. -/
theorem connections_pagination_witness :
    (Sample.keeper.Connections Sample.ctx (some ⟨some { Limit := 2 }⟩) =
        .ok { Connections := [⟨"connection-0", "07-tendermint-0"⟩, ⟨"connection-1", "07-tendermint-0"⟩]
              Res := { NextKey := "connections/connection-2" }
              Height := 7 } ∧
      "connections/connection-2" ≠ "") ∧
    Sample.keeper.Connections Sample.ctx
        (some ⟨some { Key := "connections/connection-2", Limit := 2 }⟩) =
      .ok { Connections := [⟨"connection-2", "07-tendermint-1"⟩]
            Res := { NextKey := "" }
            Height := 7 } ∧
    collectPages Sample.keeper Sample.ctx 2 3 "" =
      some [⟨"connection-0", "07-tendermint-0"⟩, ⟨"connection-1", "07-tendermint-0"⟩,
        ⟨"connection-2", "07-tendermint-1"⟩] :=
  have h := connections_pagination Sample.keeper Sample.ctx
    (fun e => match Sample.decodeConnection e.2 with
      | .ok c => c
      | .error _ => ⟨"", ""⟩) 2
    (by
      intro e he
      simp only [connectionEntries, Sample.ctx, Sample.ctxAt, Sample.storeOf,
        Sample.connectionView, if_true, List.mem_cons, List.mem_singleton,
        List.not_mem_nil, or_false] at he
      rcases he with rfl | rfl | rfl <;> rfl)
    (by decide) (by decide) (by decide)
  ⟨h.1, by decide, h.2 3 (by decide)⟩

/-! ## ClientsConnections -/

/-- Splitting always yields at least one segment. -/
theorem splitChars_ne_nil (sep : Char) : ∀ l : List Char, strings.splitChars sep l ≠ [] := by
  intro l
  induction l with
  | nil => simp [strings.splitChars]
  | cons c cs ih =>
    unfold strings.splitChars
    split
    · simp
    · split <;> simp

/-- Indexing a slice at its length minus one yields its last element. -/
theorem index_last (xs : List String) (last : String) (h : xs.getLast? = some last) :
    index xs ((xs.length : Int) - 1) = .ok last := by
  have hne : xs ≠ [] := by
    intro h0; rw [h0] at h; simp at h
  have hpos : 0 < xs.length := List.length_pos.2 hne
  have hnat : ((xs.length : Int) - 1).toNat = xs.length - 1 := by omega
  have hget : xs.get? (xs.length - 1) = some last := by
    rw [List.get?_eq_getElem?, ← List.getLast?_eq_getElem?]; exact h
  unfold index
  rw [if_neg (by omega), hnat, hget]

/-- Indexing a slice at 1 yields its second element and panics when there is none. -/
theorem index_one (xs : List String) :
    index xs 1 = match xs.get? 1 with
      | some x => .ok x
      | none => .panic "index out of range" := by
  simp [index]

/-- A split with no second segment is the unsplit input. -/
theorem splitChars_single (sep : Char) :
    ∀ l : List Char, (strings.splitChars sep l).get? 1 = none → strings.splitChars sep l = [l] := by
  intro l
  induction l with
  | nil => intro _; rfl
  | cons c cs ih =>
    intro h
    unfold strings.splitChars at h ⊢
    by_cases hc : c = sep
    · rw [if_pos hc] at h
      cases hs : strings.splitChars sep cs with
      | nil => exact absurd hs (splitChars_ne_nil sep cs)
      | cons seg segs => rw [hs] at h; simp at h
    · rw [if_neg hc] at h ⊢
      cases hs : strings.splitChars sep cs with
      | nil => exact absurd hs (splitChars_ne_nil sep cs)
      | cons seg segs =>
        rw [hs] at h ih
        simp only [List.get?_cons_succ] at h
        have hsegs : segs = [] := by
          cases segs with
          | nil => rfl
          | cons a t => simp at h
        subst hsegs
        have := ih (by simp)
        simp only [List.cons.injEq, and_true] at this
        simp [this]

/-- A key that ends in "clientState" and has no second segment is the key "clientState". -/
theorem lone_client_state (key : String) (hl : lastSegment key = some "clientState")
    (hs : secondSegment key = none) : key = "clientState" := by
  unfold secondSegment strings.Split at hs
  unfold lastSegment strings.Split at hl
  rw [List.get?_eq_getElem?, List.getElem?_map, Option.map_eq_none', ← List.get?_eq_getElem?] at hs
  rw [splitChars_single '/' key.toList hs] at hl
  simpa using hl

/-- The entry of a key is `⟨id, paths⟩` exactly when the key ends in "clientState", its
second segment is `id`, and the accessor finds `paths` for `id`. -/
theorem entryOf_eq_some_iff (q : Keeper) (ctx : Context) (key id : String) (paths : List String) :
    entryOf q ctx key = some ⟨id, paths⟩ ↔
      lastSegment key = some "clientState" ∧ secondSegment key = some id ∧
        q.GetClientConnectionPaths ctx id = .ok (paths, true) := by
  unfold entryOf
  by_cases hl : lastSegment key = some "clientState"
  · simp only [hl, if_true, true_and]
    cases hs : secondSegment key with
    | none => simp
    | some id' =>
      simp only [Option.some.injEq]
      constructor
      · intro h
        cases hg : q.GetClientConnectionPaths ctx id' with
        | error m => simp [hg] at h
        | ok r =>
          obtain ⟨p, b⟩ := r
          cases b
          · simp [hg] at h
          · simp only [hg, Option.some.injEq, ConnectionPaths.mk.injEq] at h
            obtain ⟨rfl, rfl⟩ := h
            exact ⟨rfl, hg⟩
      · rintro ⟨rfl, h2⟩
        simp [h2]
  · simp [hl]

/-- On a key other than the lone segment "clientState", over a readable store, the
callback of `ClientsConnections` appends the entry of the key, if it has one, and
reports no error. -/
theorem clientsConnectionsVisitor_eq (q : Keeper) (ctx : Context) (key : String) (v : Bytes)
    (acc : List ConnectionPaths)
    (hread : ∀ id, ∃ r, q.GetClientConnectionPaths ctx id = .ok r)
    (hbare : key ≠ "clientState") :
    clientsConnectionsVisitor q ctx key v acc = .ok (acc ++ (entryOf q ctx key).toList) := by
  have hseg : lastSegment key = some "clientState" → (secondSegment key).isSome := by
    intro hl
    cases hs : secondSegment key with
    | none => exact absurd (lone_client_state key hl hs) hbare
    | some id => rfl
  have hne : strings.Split key '/' ≠ [] := by
    unfold strings.Split
    intro h0
    exact splitChars_ne_nil '/' key.toList (List.map_eq_nil_iff.1 h0)
  obtain ⟨last, hlast⟩ : ∃ last, (strings.Split key '/').getLast? = some last := by
    cases h : (strings.Split key '/').getLast? with
    | none => exact absurd (List.getLast?_eq_none_iff.1 h) hne
    | some x => exact ⟨x, rfl⟩
  have hlast' : lastSegment key = some last := hlast
  unfold clientsConnectionsVisitor
  simp only [index_last _ _ hlast]
  by_cases hcs : last = "clientState"
  · subst hcs
    obtain ⟨id, hid⟩ := Option.isSome_iff_exists.1 (hseg hlast')
    have hid' : (strings.Split key '/').get? 1 = some id := hid
    obtain ⟨⟨paths, found⟩, hr⟩ := hread id
    simp only [index_one, hid', hr, ne_eq, not_true_eq_false, if_false]
    cases found
    · simp [entryOf, hlast', hid, hr]
    · simp [entryOf, hlast', hid, hr, NewConnectionPaths]
  · have hno : entryOf q ctx key = none := by
      unfold entryOf
      rw [if_neg]
      rw [hlast']
      simpa using hcs
    simp [hcs, hno]

/-- A filter keeps the length of a list exactly when it keeps every element. -/
theorem length_filterMap_eq_iff {α β : Type} (g : α → Option β) :
    ∀ l : List α, (l.filterMap g).length = l.length ↔ ∀ a ∈ l, (g a).isSome := by
  intro l
  induction l with
  | nil => simp
  | cons a t ih =>
    cases hg : g a with
    | none =>
      have hle := List.length_filterMap_le g t
      simp only [List.filterMap_cons, hg, List.length_cons, List.mem_cons, forall_eq_or_imp,
        Option.isSome_none, Bool.false_eq_true, false_and, iff_false]
      omega
    | some b =>
      simp only [List.filterMap_cons, hg, List.length_cons, List.mem_cons, forall_eq_or_imp,
        Option.isSome_some, true_and, Nat.add_right_cancel_iff]
      exact ih

/-- One page of `ClientsConnections` over a readable store, none of the covered keys
the lone segment "clientState": the entries of the covered keys, in scan order, and the
cursor on the entry after them. -/
theorem clients_page (q : Keeper) (ctx : Context) (req : Option PageRequest)
    (hok : ¬ (0 < (req.getD {}).Offset ∧ (req.getD {}).Key ≠ ""))
    (hread : ∀ id, ∃ r, q.GetClientConnectionPaths ctx id = .ok r)
    (hbare : ∀ e ∈ scannedRange q (ctx.store.view host.KeyClientStorePrefix) req,
      e.1 ≠ "clientState") :
    q.ClientsConnections ctx (some ⟨req⟩) =
      .ok { ConnectionsPaths :=
              (scannedRange q (ctx.store.view host.KeyClientStorePrefix) req).filterMap
                (fun e => entryOf q ctx e.1)
            Res := { NextKey := cursor ((query.scanFrom (ctx.store.view host.KeyClientStorePrefix)
                        (req.getD {})).drop (query.effectiveLimit q (req.getD {})))
                     Total := if (req.getD {}).CountTotal then (clientEntries ctx).length else 0 }
            Height := ctx.BlockHeight } := by
  have hrange : scannedRange q (ctx.store.view host.KeyClientStorePrefix) req =
      (query.scanFrom (ctx.store.view host.KeyClientStorePrefix) (req.getD {})).take
        (query.effectiveLimit q (req.getD {})) := by
    unfold scannedRange
    simp only [hok, if_false]
  rw [hrange] at hbare
  have hloop := pageLoop_collect (clientsConnectionsVisitor q ctx) (fun e => entryOf q ctx e.1)
    (query.scanFrom (ctx.store.view host.KeyClientStorePrefix) (req.getD {}))
    (query.effectiveLimit q (req.getD {})) []
    (fun e he acc => clientsConnectionsVisitor_eq q ctx e.1 e.2 acc hread (hbare e he))
  simp only [ClientsConnections, query.Paginate, hok, if_false, hloop, hrange, clientEntries,
    List.nil_append]

/-- C4: a store state on which `ClientsConnections` does not do what the claim says.
The store holds client "07-tendermint-0" with marker and paths, and the key
"clientsclientState", which its client view presents as the one-segment key
"clientState". Without that key the call succeeds with exactly the entry of
"07-tendermint-0". With it, and a page large enough for every key, the callback passes
the last-segment test on "clientState", indexes the split key at 1 and panics: the
call returns no response, where the claim says it succeeds with the one entry. -/
theorem clients_connections_bare_key_panics :
    Sample.strippedKeeper.ClientsConnections Sample.strippedCtx (some ⟨none⟩) =
      .ok { ConnectionsPaths := [⟨"07-tendermint-0", ["connection-0"]⟩]
            Res := { NextKey := "" }
            Height := 7 } ∧
    (clientEntries Sample.strippedBareCtx).length ≤ query.effectiveLimit Sample.strippedKeeper {} ∧
    Sample.strippedKeeper.GetClientConnectionPaths Sample.strippedBareCtx "07-tendermint-0" =
      .ok (["connection-0"], true) ∧
    clientsConnectionsVisitor Sample.strippedKeeper Sample.strippedBareCtx "clientState" "state"
        [⟨"07-tendermint-0", ["connection-0"]⟩] = .panic "index out of range" ∧
    Sample.strippedKeeper.ClientsConnections Sample.strippedBareCtx (some ⟨none⟩) =
      .panic "index out of range" ∧
    ∀ resp, Sample.strippedKeeper.ClientsConnections Sample.strippedBareCtx (some ⟨none⟩) ≠
      .ok resp := by
  refine ⟨by decide, by decide, rfl, by decide, by decide, ?_⟩
  intro resp hr
  have h : Sample.strippedKeeper.ClientsConnections Sample.strippedBareCtx (some ⟨none⟩) =
      .panic "index out of range" := by decide
  rw [h] at hr
  cases hr

/-- The full scan away from the lone key: over a store whose reads do not fail and none
of whose scanned keys is the lone segment "clientState", a page request without resume
key or offset and with a page size of at least the number of keys makes
`ClientsConnections` succeed with an empty cursor, the context's height, and, in scan order, one entry per
key whose last segment is "clientState" and whose client (the second segment) has
stored paths, pairing that client id with those paths. So an entry `⟨id, paths⟩` is
returned exactly when some key ends in "clientState", has `id` as second segment, and
`paths` are stored for `id`: a client with paths but no such key is omitted, a client
with such a key but no paths is omitted without error, a client with both is included. -/
theorem clients_connections_full_scan (q : Keeper) (ctx : Context) (req : Option PageRequest)
    (hkey : (req.getD {}).Key = "") (hoff : (req.getD {}).Offset = 0)
    (hbig : (clientEntries ctx).length ≤ query.effectiveLimit q (req.getD {}))
    (hread : ∀ id, ∃ r, q.GetClientConnectionPaths ctx id = .ok r)
    (hbare : ∀ e ∈ clientEntries ctx, e.1 ≠ "clientState") :
    ∃ resp, q.ClientsConnections ctx (some ⟨req⟩) = .ok resp ∧
      resp.Height = ctx.BlockHeight ∧ resp.Res.NextKey = "" ∧
      resp.ConnectionsPaths =
        (if (req.getD {}).Reverse then (clientEntries ctx).reverse else clientEntries ctx).filterMap
          (fun e => entryOf q ctx e.1) ∧
      ∀ id paths, (⟨id, paths⟩ : ConnectionPaths) ∈ resp.ConnectionsPaths ↔
        ∃ e ∈ clientEntries ctx, lastSegment e.1 = some "clientState" ∧
          secondSegment e.1 = some id ∧ q.GetClientConnectionPaths ctx id = .ok (paths, true) := by
  have hok : ¬ (0 < (req.getD {}).Offset ∧ (req.getD {}).Key ≠ "") := by
    rw [hoff]; simp
  have hscan : query.scanFrom (ctx.store.view host.KeyClientStorePrefix) (req.getD {}) =
      if (req.getD {}).Reverse then (clientEntries ctx).reverse else clientEntries ctx := by
    unfold query.scanFrom clientEntries
    simp [hkey, hoff]
  have hlen : (query.scanFrom (ctx.store.view host.KeyClientStorePrefix) (req.getD {})).length ≤
      query.effectiveLimit q (req.getD {}) := by
    rw [hscan]; split <;> simpa using hbig
  have hmem : ∀ e, e ∈ query.scanFrom (ctx.store.view host.KeyClientStorePrefix) (req.getD {}) ↔
      e ∈ clientEntries ctx := by
    intro e; rw [hscan]; split <;> simp
  have hrange : scannedRange q (ctx.store.view host.KeyClientStorePrefix) req =
      query.scanFrom (ctx.store.view host.KeyClientStorePrefix) (req.getD {}) := by
    unfold scannedRange
    simp only [hok, if_false]
    exact List.take_of_length_le hlen
  have hpage := clients_page q ctx req hok hread (by
    rw [hrange]; intro e he; exact hbare e ((hmem e).1 he))
  rw [hrange, List.drop_of_length_le hlen] at hpage
  refine ⟨_, hpage, rfl, rfl, ?_, ?_⟩
  · simp only [hscan]
  · intro id paths
    simp only [List.mem_filterMap, entryOf_eq_some_iff]
    constructor
    · rintro ⟨e, he, h⟩; exact ⟨e, (hmem e).1 he, h⟩
    · rintro ⟨e, he, h⟩; exact ⟨e, (hmem e).2 he, h⟩

/-- The full scan on a sample: client "07-tendermint-0" has marker and paths, client
"07-tendermint-1" has the marker only; the result has exactly one entry, for
"07-tendermint-0". -/
theorem clients_connections_full_scan_witness :
    ∃ resp, Sample.keeper.ClientsConnections Sample.ctx (some ⟨none⟩) = .ok resp ∧
      resp.Height = 7 ∧ resp.Res.NextKey = "" ∧
      resp.ConnectionsPaths = [⟨"07-tendermint-0", ["connection-0"]⟩] ∧
      ∀ id paths, (⟨id, paths⟩ : ConnectionPaths) ∈ resp.ConnectionsPaths ↔
        ∃ e ∈ clientEntries Sample.ctx, lastSegment e.1 = some "clientState" ∧
          secondSegment e.1 = some id ∧
          Sample.keeper.GetClientConnectionPaths Sample.ctx id = .ok (paths, true) :=
  clients_connections_full_scan Sample.keeper Sample.ctx none rfl rfl (by decide)
    (fun id => by
      show ∃ r, (match Sample.get _ _ with
        | none => Except.ok ([], false)
        | some bz => Except.ok (strings.Split bz ',', true)) = Except.ok r
      cases Sample.get (Sample.ctx.store.view host.KeyClientStorePrefix)
        ("clients/" ++ id ++ "/connections") <;> exact ⟨_, rfl⟩)
    (by decide)

/-- C5: on the one-segment key "clientState" the callback of `ClientsConnections`
panics with an index out of range, for every keeper, context, value and accumulated
result, and so does the whole call over a view that presents that key; and on the
two-segment key "clients/clientState" the callback takes "clientState" as the client
id and appends an entry when paths are stored under that name. -/
theorem short_key_not_skipped (q : Keeper) (ctx : Context) (v : Bytes)
    (acc : List ConnectionPaths) :
    clientsConnectionsVisitor q ctx "clientState" v acc = .panic "index out of range" ∧
    Sample.keeper.ClientsConnections Sample.bareKeyCtx (some ⟨none⟩) =
      .panic "index out of range" ∧
    clientsConnectionsVisitor Sample.keeper Sample.shortKeyCtx "clients/clientState" "state" [] =
      .ok [⟨"clientState", ["connection-0"]⟩] := by
  refine ⟨?_, by decide, by decide⟩
  have hsplit : strings.Split "clientState" '/' = ["clientState"] := by decide
  have h1 : index ["clientState"] 1 = .panic "index out of range" := by decide
  have h0 : index ["clientState"] (((["clientState"] : List String).length : Int) - 1) =
      .ok "clientState" := by decide
  simp only [clientsConnectionsVisitor, hsplit, h0, h1, ne_eq, not_true_eq_false, if_false]

/-- C7, counterexample: two clients, each with marker and paths, so two qualifying
keys; with limit 2 the page covers the first two keys, one of them a skipped
"connections" key, and holds one entry, not two. -/
theorem clients_connections_skipped_key_counted :
    ((clientEntries Sample.twoClientsCtx).filterMap
        (fun e => entryOf Sample.keeper Sample.twoClientsCtx e.1)).length = 2 ∧
    Sample.keeper.ClientsConnections Sample.twoClientsCtx (some ⟨some { Limit := 2 }⟩) =
      .ok { ConnectionsPaths := [⟨"07-tendermint-0", ["connection-0"]⟩]
            Res := { NextKey := "clients/07-tendermint-1/clientState" }
            Height := 7 } ∧
    ([⟨"07-tendermint-0", ["connection-0"]⟩] : List ConnectionPaths).length ≠ 2 := by
  refine ⟨by rfl, by decide, by decide⟩

/-- C7, as amended: a key the callback skips counts toward the page limit like every
other visited key. For a limit L with 0 < L (within the largest page size the scanner
serves), over a readable store with at least L keys in the scanned range, none of the
first L the lone segment "clientState", the page covers exactly the first L keys: it
holds the entries of the qualifying keys among them, in order, and leaves the cursor on
key L. So the page holds at most L entries, and exactly L only when each of the first L
keys qualifies. -/
theorem clients_connections_limit_counts_keys (q : Keeper) (ctx : Context) (L : Nat)
    (hpos : 0 < L) (hmax : L ≤ q.maxLimit) (hlen : L ≤ (clientEntries ctx).length)
    (hread : ∀ id, ∃ r, q.GetClientConnectionPaths ctx id = .ok r)
    (hbare : ∀ e ∈ (clientEntries ctx).take L, e.1 ≠ "clientState") :
    ∃ resp, q.ClientsConnections ctx (some ⟨some { Limit := L }⟩) = .ok resp ∧
      resp.ConnectionsPaths =
        ((clientEntries ctx).take L).filterMap (fun e => entryOf q ctx e.1) ∧
      resp.Res.NextKey = cursor ((clientEntries ctx).drop L) ∧
      resp.ConnectionsPaths.length ≤ L ∧
      (resp.ConnectionsPaths.length = L ↔
        ∀ e ∈ (clientEntries ctx).take L, (entryOf q ctx e.1).isSome) := by
  have hl : query.effectiveLimit q { Limit := L } = L := effectiveLimit_eq q _ hpos hmax
  have hok : ¬ (0 < ((some { Limit := L } : Option PageRequest).getD {}).Offset ∧
      ((some { Limit := L } : Option PageRequest).getD {}).Key ≠ "") := by simp
  have hscan : query.scanFrom (ctx.store.view host.KeyClientStorePrefix) { Limit := L } =
      clientEntries ctx := by
    simp [query.scanFrom, clientEntries]
  have hrange : scannedRange q (ctx.store.view host.KeyClientStorePrefix) (some { Limit := L }) =
      (clientEntries ctx).take L := by
    unfold scannedRange
    simp only [Option.getD_some, hl, hscan]
    simp
  have hpage := clients_page q ctx (some { Limit := L }) hok hread (by rw [hrange]; exact hbare)
  simp only [Option.getD_some, hl, hscan, hrange] at hpage
  have htake : ((clientEntries ctx).take L).length = L := by
    rw [List.length_take]; omega
  refine ⟨_, hpage, rfl, rfl, ?_, ?_⟩
  · have := List.length_filterMap_le (fun e => entryOf q ctx e.1) ((clientEntries ctx).take L)
    simp only
    omega
  · have := length_filterMap_eq_iff (fun e => entryOf q ctx e.1) ((clientEntries ctx).take L)
    rw [htake] at this
    exact this

/-- Witness for C7: the store of the counterexample with limit 2. -/
theorem clients_connections_limit_counts_keys_witness :
    ∃ resp, Sample.keeper.ClientsConnections Sample.twoClientsCtx (some ⟨some { Limit := 2 }⟩) =
        .ok resp ∧
      resp.ConnectionsPaths = [⟨"07-tendermint-0", ["connection-0"]⟩] ∧
      resp.Res.NextKey = "clients/07-tendermint-1/clientState" ∧
      resp.ConnectionsPaths.length ≤ 2 ∧
      (resp.ConnectionsPaths.length = 2 ↔
        ∀ e ∈ (clientEntries Sample.twoClientsCtx).take 2,
          (entryOf Sample.keeper Sample.twoClientsCtx e.1).isSome) :=
  clients_connections_limit_counts_keys Sample.keeper Sample.twoClientsCtx 2 (by decide)
    (by decide) (by decide)
    (fun id => by
      show ∃ r, (match Sample.get _ _ with
        | none => Except.ok ([], false)
        | some bz => Except.ok (strings.Split bz ',', true)) = Except.ok r
      cases Sample.get (Sample.twoClientsCtx.store.view host.KeyClientStorePrefix)
        ("clients/" ++ id ++ "/connections") <;> exact ⟨_, rfl⟩)
    (by decide)

/-! ## Heights -/

/-- The conversion `uint64(h)` keeps a non-negative signed 64-bit value and adds 2^64
to a negative one. -/
theorem uint64_cases (h : Int) (hr : -2 ^ 63 ≤ h ∧ h < 2 ^ 63) :
    (0 ≤ h → (uint64 h : Int) = h) ∧ (h < 0 → (uint64 h : Int) = h + 2 ^ 64) := by
  unfold uint64
  have hnn : 0 ≤ h % 2 ^ 64 := Int.emod_nonneg _ (by norm_num)
  rw [Int.toNat_of_nonneg hnn]
  constructor
  · intro h0
    exact Int.emod_eq_of_lt h0 (by omega)
  · intro h0
    have : (h + 2 ^ 64) % 2 ^ 64 = h + 2 ^ 64 := Int.emod_eq_of_lt (by omega) (by omega)
    rw [← this]
    simp

/-- C10, counterexample: at block height -1 a successful `Connection` response carries
the proof height 18446744073709551615, which is not the number -1. -/
theorem proof_height_negative_height :
    Sample.negativeCtx.BlockHeight = -1 ∧
    Sample.keeper.Connection Sample.negativeCtx (some ⟨"connection-0"⟩) =
      .ok { Connection := ⟨"connection-0", "07-tendermint-0"⟩
            ProofHeight := 18446744073709551615 } ∧
    ((18446744073709551615 : Nat) : Int) ≠ Sample.negativeCtx.BlockHeight := by
  refine ⟨rfl, by decide, by decide⟩

/-- C10, as amended: in every successful response the height field is fixed by the
context's block height alone, whatever the request. `Height` of `Connections` and
`ClientsConnections` is the block height itself. `ProofHeight` of `Connection` and
`ClientConnections` is the conversion `uint64` of the block height: the same number
when the block height is not negative, and that number plus 2^64 when it is. -/
theorem response_height_from_context (q : Keeper) (ctx : Context) :
    (∀ req resp, q.Connection ctx req = .ok resp →
      resp.ProofHeight = uint64 ctx.BlockHeight ∧
      (0 ≤ ctx.BlockHeight → (resp.ProofHeight : Int) = ctx.BlockHeight) ∧
      (ctx.BlockHeight < 0 → (resp.ProofHeight : Int) = ctx.BlockHeight + 2 ^ 64)) ∧
    (∀ req resp, q.ClientConnections ctx req = .ok resp →
      resp.ProofHeight = uint64 ctx.BlockHeight ∧
      (0 ≤ ctx.BlockHeight → (resp.ProofHeight : Int) = ctx.BlockHeight) ∧
      (ctx.BlockHeight < 0 → (resp.ProofHeight : Int) = ctx.BlockHeight + 2 ^ 64)) ∧
    (∀ req resp, q.Connections ctx req = .ok resp → resp.Height = ctx.BlockHeight) ∧
    (∀ req resp, q.ClientsConnections ctx req = .ok resp → resp.Height = ctx.BlockHeight) := by
  have hu := uint64_cases ctx.BlockHeight ctx.int64
  refine ⟨?_, ?_, ?_, ?_⟩
  · intro req resp h
    have hp : resp.ProofHeight = uint64 ctx.BlockHeight := by
      unfold Connection at h
      split at h
      · cases h
      · split at h
        · cases h
        · dsimp only at h
          split at h
          · cases h
          · split at h
            · cases h
            · cases h; rfl
    rw [hp]
    exact ⟨rfl, hu⟩
  · intro req resp h
    have hp : resp.ProofHeight = uint64 ctx.BlockHeight := by
      unfold ClientConnections at h
      split at h
      · cases h
      · split at h
        · cases h
        · dsimp only at h
          split at h
          · cases h
          · split at h
            · cases h
            · cases h; rfl
    rw [hp]
    exact ⟨rfl, hu⟩
  · intro req resp h
    unfold Connections at h
    split at h
    · cases h
    · dsimp only at h
      split at h
      · cases h
      · cases h
      · cases h; rfl
  · intro req resp h
    unfold ClientsConnections at h
    split at h
    · cases h
    · dsimp only at h
      split at h
      · cases h
      · cases h
      · cases h; rfl

/-- Witness for C10: at height 7 each of the four handlers answers with height 7. -/
theorem response_height_from_context_witness :
    ((7 : Nat) = uint64 Sample.ctx.BlockHeight ∧
      (0 ≤ Sample.ctx.BlockHeight → ((7 : Nat) : Int) = Sample.ctx.BlockHeight) ∧
      (Sample.ctx.BlockHeight < 0 → ((7 : Nat) : Int) = Sample.ctx.BlockHeight + 2 ^ 64)) ∧
    ((7 : Nat) = uint64 Sample.ctx.BlockHeight ∧
      (0 ≤ Sample.ctx.BlockHeight → ((7 : Nat) : Int) = Sample.ctx.BlockHeight) ∧
      (Sample.ctx.BlockHeight < 0 → ((7 : Nat) : Int) = Sample.ctx.BlockHeight + 2 ^ 64)) ∧
    (7 : Int) = Sample.ctx.BlockHeight ∧
    (7 : Int) = Sample.ctx.BlockHeight :=
  ⟨(response_height_from_context Sample.keeper Sample.ctx).1 (some ⟨"connection-0"⟩)
      { Connection := ⟨"connection-0", "07-tendermint-0"⟩, ProofHeight := 7 } (by decide),
   (response_height_from_context Sample.keeper Sample.ctx).2.1 (some ⟨"07-tendermint-0"⟩)
      { ConnectionPaths := ["connection-0"], ProofHeight := 7 } (by decide),
   (response_height_from_context Sample.keeper Sample.ctx).2.2.1 (some ⟨some { Limit := 3 }⟩)
      { Connections := [⟨"connection-0", "07-tendermint-0"⟩, ⟨"connection-1", "07-tendermint-0"⟩,
          ⟨"connection-2", "07-tendermint-1"⟩]
        Res := {}
        Height := 7 } (by decide),
   (response_height_from_context Sample.keeper Sample.ctx).2.2.2 (some ⟨none⟩)
      { ConnectionsPaths := [⟨"07-tendermint-0", ["connection-0"]⟩]
        Res := {}
        Height := 7 } (by decide)⟩
